import Mathlib

/-!
Verification of the form-state synchronizer in `src/react_forms/src/App.jsx`.

The component keeps one mapping from field identifier to field value
(`formState`), updates one entry per change event via an object-spread copy,
and on submission suppresses the default action, logs the current state and
resets the state to `initialState`.

We embed a JavaScript object as an association list of string keys and string
values, in insertion order (JS objects preserve key insertion order; a spread
`{...s, [k]: v}` keeps an existing key at its position with its value replaced
and appends a fresh key at the end).  The submit handler is embedded as the
ordered list of effects its body performs.
-/

namespace ReactForms

/-- A JavaScript object with string values: key/value pairs in insertion
order.  This is the type of `formState` in `App.jsx`. -/
abbrev FormState := List (String × String)

/-- Key membership test, as `Object.hasOwn`-style presence of a key. -/
def hasKey (s : FormState) (k : String) : Bool :=
  s.any (fun p => p.1 == k)

/-- The keys of the object, in insertion order (`Object.keys`). -/
def keysOf (s : FormState) : List String :=
  s.map (fun p => p.1)

/-- Property read `s[k]`: the value at the first occurrence of key `k`,
or `none` when the key is absent. -/
def getField (s : FormState) (k : String) : Option String :=
  (s.find? (fun p => p.1 == k)).map (fun p => p.2)

/-- The spread update `{...s, [k]: v}` from line 20 of `App.jsx`: if `k` is
already a key its value becomes `v` at the same position, otherwise the pair
`(k, v)` is appended at the end. -/
def setField (s : FormState) (k v : String) : FormState :=
  if hasKey s k then
    s.map (fun p => if p.1 == k then (p.1, v) else p)
  else
    s ++ [(k, v)]

/-- `const initialState = { issueType: '', subject: '', message: '' }`
(lines 5–9 of `App.jsx`). -/
def initialState : FormState :=
  [("issueType", ""), ("subject", ""), ("message", "")]

/-- A field-change event as `handleChange` reads it: `e.target.id` and
`e.target.value`. -/
structure ChangeEvent where
  targetId : String
  targetValue : String
deriving DecidableEq, Repr

/-- `handleChange` (lines 19–21): the state passed to `setFormState`,
namely `{...formState, [e.target.id]: e.target.value}`. -/
def handleChange (s : FormState) (e : ChangeEvent) : FormState :=
  setField s e.targetId e.targetValue

/-- One observable effect performed by an event handler. -/
inductive Effect where
  /-- `e.preventDefault()` -/
  | preventDefault : Effect
  /-- `console.log(st)` — the state handed to the downstream sink -/
  | consoleLog : FormState → Effect
  /-- `setFormState(st)` — the state the component will hold next -/
  | setState : FormState → Effect
deriving DecidableEq, Repr

/-- `handleSubmit` (lines 13–17), as the ordered trace of its three
statements: `e.preventDefault()`, `console.log(formState)`,
`setFormState(initialState)`. -/
def handleSubmit (s : FormState) : List Effect :=
  [Effect.preventDefault, Effect.consoleLog s, Effect.setState initialState]

/-- The component state after an effect: only `setFormState` replaces it. -/
def applyEffect (s : FormState) : Effect → FormState
  | Effect.setState t => t
  | _ => s

/-- The component state after a handler's whole effect trace. -/
def runEffects (s : FormState) (es : List Effect) : FormState :=
  es.foldl applyEffect s

/-- Folding a list of change events over a state, one `handleChange` per
event. -/
def applyEdits (s : FormState) (es : List ChangeEvent) : FormState :=
  es.foldl handleChange s

/-! ### Basic lemmas about `setField` -/

theorem hasKey_eq_isSome_find (s : FormState) (k : String) :
    hasKey s k = (s.find? (fun p => p.1 == k)).isSome := by
  rw [Bool.eq_iff_iff]
  unfold hasKey
  rw [List.any_eq_true, List.find?_isSome]

theorem comp_pred_update (k v j : String) :
    ((fun p : String × String => p.1 == j) ∘
      (fun p => if p.1 == k then (p.1, v) else p)) = fun p => p.1 == j := by
  funext p
  by_cases hp : p.1 == k <;> simp [Function.comp, hp]

theorem keysOf_setField_of_hasKey (s : FormState) (k v : String)
    (h : hasKey s k = true) : keysOf (setField s k v) = keysOf s := by
  unfold setField keysOf
  rw [if_pos h, List.map_map]
  apply List.map_congr_left
  intro p _
  by_cases hp : p.1 == k <;> simp [hp, Function.comp]

theorem getField_setField_self (s : FormState) (k v : String) :
    getField (setField s k v) k = some v := by
  unfold setField
  by_cases h : hasKey s k = true
  · rw [if_pos h, getField, List.find?_map, comp_pred_update]
    rw [hasKey_eq_isSome_find] at h
    obtain ⟨p, hfind⟩ := Option.isSome_iff_exists.mp h
    have hk : p.1 = k := by simpa using List.find?_some hfind
    rw [hfind]
    simp [Option.map, hk]
  · rw [if_neg h, getField, List.find?_append]
    have hnone : s.find? (fun p => p.1 == k) = none := by
      rw [List.find?_eq_none]
      intro x hx hc
      exact h (List.any_eq_true.mpr ⟨x, hx, hc⟩)
    rw [hnone]
    simp

theorem getField_setField_other (s : FormState) (k v j : String)
    (hjk : j ≠ k) : getField (setField s k v) j = getField s j := by
  unfold setField
  by_cases h : hasKey s k = true
  · rw [if_pos h]
    unfold getField
    rw [List.find?_map, comp_pred_update]
    cases hfind : s.find? (fun p => p.1 == j) with
    | none => simp
    | some p =>
      have hpj : p.1 = j := by simpa using List.find?_some hfind
      have hne : p.1 ≠ k := by rw [hpj]; exact hjk
      simp [Option.map, beq_iff_eq, hne]
  · rw [if_neg h]
    unfold getField
    have htail : List.find? (fun p => p.1 == j) [(k, v)] = none := by
      have hkj : (k == j) = false := by
        simpa [beq_iff_eq] using fun hc => hjk hc.symm
      simp [List.find?, hkj]
    rw [List.find?_append, htail]
    cases s.find? (fun p => p.1 == j) <;> simp

theorem hasKey_setField (s : FormState) (k v j : String) :
    hasKey (setField s k v) j = (hasKey s j || j == k) := by
  unfold setField
  by_cases h : hasKey s k = true
  · rw [if_pos h]
    have hm : hasKey (s.map fun p => if p.1 == k then (p.1, v) else p) j
        = hasKey s j := by
      unfold hasKey
      rw [List.any_map, comp_pred_update]
    rw [hm]
    by_cases hjk : j = k
    · subst hjk
      simp [h]
    · simp [beq_iff_eq, hjk]
  · rw [if_neg h]
    unfold hasKey
    rw [List.any_append]
    by_cases hjk : j = k
    · subst hjk
      simp
    · have h1 : (j == k) = false := by simpa [beq_iff_eq] using hjk
      have h2 : (k == j) = false := by
        simpa [beq_iff_eq] using fun hc => hjk hc.symm
      simp [h1, h2]

theorem setField_of_hasKey (s : FormState) (k v : String)
    (h : hasKey s k = true) :
    setField s k v = s.map (fun p => if p.1 == k then (p.1, v) else p) := by
  unfold setField
  rw [if_pos h]

theorem hasKey_eq_any_keysOf (s : FormState) (k : String) :
    hasKey s k = (keysOf s).any (fun x => x == k) := by
  unfold hasKey keysOf
  induction s with
  | nil => rfl
  | cons p t ih => simp [List.any_cons, List.map_cons, ih]

/-- Recognizer for the `preventDefault` effect, used to count its
occurrences in a handler's trace. -/
def isPreventDefault : Effect → Bool
  | Effect.preventDefault => true
  | _ => false

theorem keysOf_applyEdits (s : FormState) (es : List ChangeEvent)
    (h : ∀ e ∈ es, hasKey s e.targetId = true) :
    keysOf (applyEdits s es) = keysOf s := by
  induction es generalizing s with
  | nil => rfl
  | cons e t ih =>
    have h0 : hasKey s e.targetId = true := h e (List.mem_cons_self _ _)
    have hk : keysOf (handleChange s e) = keysOf s :=
      keysOf_setField_of_hasKey s e.targetId e.targetValue h0
    have ht : ∀ x ∈ t, hasKey (handleChange s e) x.targetId = true := by
      intro x hx
      rw [hasKey_eq_any_keysOf, hk, ← hasKey_eq_any_keysOf]
      exact h x (List.mem_cons_of_mem _ hx)
    calc keysOf (applyEdits (handleChange s e) t)
        = keysOf (handleChange s e) := ih (handleChange s e) ht
      _ = keysOf s := hk

/-! ### Claims -/

/-- C1: for a field-edit event targeting an existing key `k` with value `v`,
`handleChange` yields a state whose entry at `k` is `v`, whose entry at every
other key `j ≠ k` is unchanged, and whose key list is unchanged (no key added
or removed). -/
theorem handleChange_updates_only_target (s : FormState) (e : ChangeEvent)
    (h : hasKey s e.targetId = true) :
    getField (handleChange s e) e.targetId = some e.targetValue ∧
    (∀ j, j ≠ e.targetId → getField (handleChange s e) j = getField s j) ∧
    keysOf (handleChange s e) = keysOf s :=
  ⟨getField_setField_self s e.targetId e.targetValue,
   fun j hj => getField_setField_other s e.targetId e.targetValue j hj,
   keysOf_setField_of_hasKey s e.targetId e.targetValue h⟩

/-- Witness for C1 at a concrete input. -/
theorem handleChange_updates_only_target_witness :
    hasKey initialState "issueType" = true ∧
    getField (handleChange initialState ⟨"issueType", "billing"⟩) "issueType"
      = some "billing" ∧
    getField (handleChange initialState ⟨"issueType", "billing"⟩) "subject"
      = getField initialState "subject" ∧
    keysOf (handleChange initialState ⟨"issueType", "billing"⟩)
      = keysOf initialState := by
  have h := handleChange_updates_only_target initialState
    ⟨"issueType", "billing"⟩ (by decide)
  exact ⟨by decide, h.1, h.2.1 "subject" (by decide), h.2.2⟩

/-- C2: along any sequence of field-edit events whose targets are keys of
`initialState`, the key list after every prefix of the sequence equals the
key list of `initialState`. -/
theorem keys_invariant_after_each_event (es pre suf : List ChangeEvent)
    (hsplit : es = pre ++ suf)
    (h : ∀ e ∈ es, hasKey initialState e.targetId = true) :
    keysOf (applyEdits initialState pre) = keysOf initialState := by
  subst hsplit
  exact keysOf_applyEdits initialState pre
    (fun e he => h e (List.mem_append_left _ he))

/-- Witness for C2 at a concrete two-event sequence, observed after the first
event. -/
theorem keys_invariant_after_each_event_witness :
    ([⟨"issueType", "billing"⟩, ⟨"subject", "hi"⟩] : List ChangeEvent)
      = [⟨"issueType", "billing"⟩] ++ [⟨"subject", "hi"⟩] ∧
    keysOf (applyEdits initialState [⟨"issueType", "billing"⟩])
      = keysOf initialState :=
  ⟨by decide,
   keys_invariant_after_each_event
     [⟨"issueType", "billing"⟩, ⟨"subject", "hi"⟩]
     [⟨"issueType", "billing"⟩] [⟨"subject", "hi"⟩] (by decide) (by decide)⟩

/-- C3: after any submission the state is `initialState`, whatever the state
was before, and the trace unconditionally contains the resetting
`setFormState(initialState)` call. -/
theorem submit_resets_to_initialState (s : FormState) :
    runEffects s (handleSubmit s) = initialState ∧
    Effect.setState initialState ∈ handleSubmit s :=
  ⟨rfl, by simp [handleSubmit]⟩

/-- C4: the submit handler performs, in order, exactly one
`preventDefault`, then the hand-off of the pre-reset state to the sink, then
the reset to `initialState`; `preventDefault` is the first effect and occurs
exactly once. -/
theorem submit_effect_order (s : FormState) :
    handleSubmit s = [Effect.preventDefault, Effect.consoleLog s,
      Effect.setState initialState] ∧
    (handleSubmit s).head? = some Effect.preventDefault ∧
    (handleSubmit s).countP isPreventDefault = 1 :=
  ⟨rfl, rfl, rfl⟩

/-- C5: submitting twice in a row with no intervening edits leaves the same
state after the second submission as after the first. -/
theorem submit_idempotent (s : FormState) :
    runEffects (runEffects s (handleSubmit s))
        (handleSubmit (runEffects s (handleSubmit s)))
      = runEffects s (handleSubmit s) := rfl

/-- C7: the example scenario: editing `issueType` to `"billing"`, then
`subject` to `"Invoice error"`, produces the expected intermediate states; on
submit the sink receives the pre-reset state and the state resets to
`initialState`. -/
theorem example_scenario :
    handleChange initialState ⟨"issueType", "billing"⟩
      = [("issueType", "billing"), ("subject", ""), ("message", "")] ∧
    handleChange (handleChange initialState ⟨"issueType", "billing"⟩)
        ⟨"subject", "Invoice error"⟩
      = [("issueType", "billing"), ("subject", "Invoice error"),
         ("message", "")] ∧
    handleSubmit (handleChange (handleChange initialState
        ⟨"issueType", "billing"⟩) ⟨"subject", "Invoice error"⟩)
      = [Effect.preventDefault,
         Effect.consoleLog [("issueType", "billing"),
           ("subject", "Invoice error"), ("message", "")],
         Effect.setState initialState] ∧
    runEffects (handleChange (handleChange initialState
          ⟨"issueType", "billing"⟩) ⟨"subject", "Invoice error"⟩)
        (handleSubmit (handleChange (handleChange initialState
          ⟨"issueType", "billing"⟩) ⟨"subject", "Invoice error"⟩))
      = initialState := by
  refine ⟨by decide, by decide, ?_, rfl⟩
  have h : handleChange (handleChange initialState ⟨"issueType", "billing"⟩)
      ⟨"subject", "Invoice error"⟩
      = [("issueType", "billing"), ("subject", "Invoice error"),
         ("message", "")] := by decide
  rw [h]
  exact rfl

/-! ### Heap-level model of the spread update

JavaScript object spread (`{...formState, [e.target.id]: e.target.value}` on
line 20) allocates a fresh object and never writes to the object it copies
from.  We model allocation with an append-only heap of form-state objects; a
reference is the index at which the object was allocated. -/

/-- The heap of all form-state objects allocated so far. -/
abbrev Heap := List FormState

/-- Dereference: the object at reference `r` (the empty object when `r` is
dangling). -/
def readRef (h : Heap) (r : Nat) : FormState := h.getD r []

/-- `handleChange` at the heap level: the spread allocates a fresh object
holding the updated mapping and the fresh reference is handed to
`setFormState`; no existing heap cell is written. -/
def handleChangeAlloc (h : Heap) (r : Nat) (e : ChangeEvent) :
    Heap × Nat :=
  (h ++ [handleChange (readRef h r) e], h.length)

/-- C6: `handleChange` does not mutate the previous state in place: for a
valid reference `r`, the object at `r` is unchanged by the operation, the
resulting reference is distinct from `r`, and it holds the updated mapping. -/
theorem handleChange_no_mutation (h : Heap) (r : Nat) (e : ChangeEvent)
    (hr : r < h.length) :
    (handleChangeAlloc h r e).2 ≠ r ∧
    readRef (handleChangeAlloc h r e).1 r = readRef h r ∧
    readRef (handleChangeAlloc h r e).1 (handleChangeAlloc h r e).2
      = handleChange (readRef h r) e := by
  refine ⟨Nat.ne_of_gt hr, ?_, ?_⟩
  · unfold handleChangeAlloc readRef
    rw [List.getD_eq_getElem?_getD, List.getD_eq_getElem?_getD,
      List.getElem?_append_left hr]
  · unfold handleChangeAlloc readRef
    rw [List.getD_eq_getElem?_getD,
      List.getElem?_append_right (Nat.le_refl _)]
    simp

/-- Witness for C6 at a concrete one-object heap. -/
theorem handleChange_no_mutation_witness :
    0 < ([initialState] : Heap).length ∧
    readRef (handleChangeAlloc [initialState] 0
        ⟨"subject", "hi"⟩).1 0 = readRef [initialState] 0 :=
  ⟨by decide,
   (handleChange_no_mutation [initialState] 0 ⟨"subject", "hi"⟩
     (by decide)).2.1⟩

/-- C8: a field-edit event whose target is not an existing key does not fail
and does not leave the state unchanged: the resulting key list is the old one
with the new key appended, the entry at the new key is the supplied value,
and every previously existing entry is unchanged. -/
theorem handleChange_fresh_key (s : FormState) (e : ChangeEvent)
    (h : hasKey s e.targetId = false) :
    keysOf (handleChange s e) = keysOf s ++ [e.targetId] ∧
    getField (handleChange s e) e.targetId = some e.targetValue ∧
    ∀ j, j ≠ e.targetId → getField (handleChange s e) j = getField s j := by
  refine ⟨?_, getField_setField_self s e.targetId e.targetValue,
    fun j hj => getField_setField_other s e.targetId e.targetValue j hj⟩
  unfold handleChange setField
  rw [if_neg (by simp [h])]
  unfold keysOf
  rw [List.map_append]
  rfl

/-- Witness for C8 at a concrete fresh key. -/
theorem handleChange_fresh_key_witness :
    hasKey initialState "extra" = false ∧
    keysOf (handleChange initialState ⟨"extra", "x"⟩)
      = keysOf initialState ++ ["extra"] :=
  ⟨by decide,
   (handleChange_fresh_key initialState ⟨"extra", "x"⟩ (by decide)).1⟩

/-- C9: edits to two distinct existing keys commute: applying the edit for
`(k, v)` and then the edit for `(j, w)` yields the same state as the other
order. -/
theorem handleChange_commutes (s : FormState) (k j v w : String)
    (hk : hasKey s k = true) (hj : hasKey s j = true) (hjk : j ≠ k) :
    handleChange (handleChange s ⟨k, v⟩) ⟨j, w⟩
      = handleChange (handleChange s ⟨j, w⟩) ⟨k, v⟩ := by
  have h1 : hasKey (setField s k v) j = true := by
    rw [hasKey_setField, hj, Bool.true_or]
  have h2 : hasKey (setField s j w) k = true := by
    rw [hasKey_setField, hk, Bool.true_or]
  show setField (setField s k v) j w = setField (setField s j w) k v
  have e1 := setField_of_hasKey s k v hk
  have e2 := setField_of_hasKey s j w hj
  rw [e1] at h1
  rw [e2] at h2
  rw [e1, e2, setField_of_hasKey _ _ _ h1, setField_of_hasKey _ _ _ h2,
    List.map_map, List.map_map]
  apply List.map_congr_left
  intro p _
  by_cases hpk : (p.1 == k) = true
  · have hp1 : p.1 = k := by simpa using hpk
    have hpj : (p.1 == j) = false := by
      rw [hp1]
      simpa [beq_iff_eq] using fun hc => hjk hc.symm
    simp [Function.comp, hpk, hpj]
  · by_cases hpj : (p.1 == j) = true
    · simp [Function.comp, hpk, hpj]
    · simp [Function.comp, hpk, hpj]

/-- Witness for C9 at concrete distinct existing keys. -/
theorem handleChange_commutes_witness :
    hasKey initialState "issueType" = true ∧
    hasKey initialState "subject" = true ∧
    ("subject" : String) ≠ "issueType" ∧
    handleChange (handleChange initialState ⟨"issueType", "a"⟩)
        ⟨"subject", "b"⟩
      = handleChange (handleChange initialState ⟨"subject", "b"⟩)
        ⟨"issueType", "a"⟩ :=
  ⟨by decide, by decide, by decide,
   handleChange_commutes initialState "issueType" "subject" "a" "b"
     (by decide) (by decide) (by decide)⟩

/-- C10: both handlers are deterministic: from equal states (and, for
`handleChange`, an equal event) the updated state, the whole submit effect
trace — including the value handed to the sink — and the post-submit state
are equal. -/
theorem handlers_deterministic (s t : FormState) (e f : ChangeEvent)
    (hst : s = t) (hef : e = f) :
    handleChange s e = handleChange t f ∧
    handleSubmit s = handleSubmit t ∧
    runEffects s (handleSubmit s) = runEffects t (handleSubmit t) := by
  subst hst
  subst hef
  exact ⟨rfl, rfl, rfl⟩

/-- Witness for C10 at concrete equal inputs. -/
theorem handlers_deterministic_witness :
    handleChange initialState ⟨"message", "m"⟩
      = handleChange initialState ⟨"message", "m"⟩ ∧
    handleSubmit initialState = handleSubmit initialState ∧
    runEffects initialState (handleSubmit initialState)
      = runEffects initialState (handleSubmit initialState) :=
  handlers_deterministic initialState initialState
    ⟨"message", "m"⟩ ⟨"message", "m"⟩ rfl rfl

end ReactForms
